import Mathlib

/-!
Verification development for the ClipPilot response-parsing and
transcript-formatting pipeline (src/agents/clip_pilot_agent.py).

The Python code is shallowly embedded: Python dictionaries and JSON values
become the inductive type `Json`; `json.loads` becomes the executable parser
`Json.parse`; each regular expression used by the agent is embedded as a
dedicated recursive matcher over `List Char` with the exact leftmost-match
and backtracking semantics of the original pattern; the oracle (the
tool-calling language model) is a pure function from prompt string to
response string, as the spec prescribes.

Modelling notes:
- Numbers are kept as a mantissa/decimal-exponent pair `num m e` (value
  m * 10^e).  The non-finite constants NaN/Infinity accepted by Python's
  json module are not modelled; no theorem below depends on numbers at all.
- Python equality on mixed numeric types (1 == 1.0 == True) is modelled as
  structural equality; no claim exercises mixed-type key comparison.
- Whitespace classes are the ASCII ones used by the json module and by the
  `\s` regex class on ASCII input.
-/

inductive Json where
  | null : Json
  | bool (b : Bool) : Json
  | num (m : Int) (e : Int) : Json
  | str (s : String) : Json
  | arr (xs : List Json) : Json
  | obj (kvs : List (String × Json)) : Json

mutual

def Json.decEq : (a b : Json) → Decidable (a = b)
  | .null, .null => isTrue rfl
  | .null, .bool _ => isFalse (fun h => nomatch h)
  | .null, .num _ _ => isFalse (fun h => nomatch h)
  | .null, .str _ => isFalse (fun h => nomatch h)
  | .null, .arr _ => isFalse (fun h => nomatch h)
  | .null, .obj _ => isFalse (fun h => nomatch h)
  | .bool _, .null => isFalse (fun h => nomatch h)
  | .bool a, .bool b =>
    if h : a = b then isTrue (by rw [h])
    else isFalse (fun hh => h (Json.bool.inj hh))
  | .bool _, .num _ _ => isFalse (fun h => nomatch h)
  | .bool _, .str _ => isFalse (fun h => nomatch h)
  | .bool _, .arr _ => isFalse (fun h => nomatch h)
  | .bool _, .obj _ => isFalse (fun h => nomatch h)
  | .num _ _, .null => isFalse (fun h => nomatch h)
  | .num _ _, .bool _ => isFalse (fun h => nomatch h)
  | .num m e, .num m' e' =>
    if h1 : m = m' then
      if h2 : e = e' then isTrue (by rw [h1, h2])
      else isFalse (fun hh => h2 (Json.num.inj hh).2)
    else isFalse (fun hh => h1 (Json.num.inj hh).1)
  | .num _ _, .str _ => isFalse (fun h => nomatch h)
  | .num _ _, .arr _ => isFalse (fun h => nomatch h)
  | .num _ _, .obj _ => isFalse (fun h => nomatch h)
  | .str _, .null => isFalse (fun h => nomatch h)
  | .str _, .bool _ => isFalse (fun h => nomatch h)
  | .str _, .num _ _ => isFalse (fun h => nomatch h)
  | .str a, .str b =>
    if h : a = b then isTrue (by rw [h])
    else isFalse (fun hh => h (Json.str.inj hh))
  | .str _, .arr _ => isFalse (fun h => nomatch h)
  | .str _, .obj _ => isFalse (fun h => nomatch h)
  | .arr _, .null => isFalse (fun h => nomatch h)
  | .arr _, .bool _ => isFalse (fun h => nomatch h)
  | .arr _, .num _ _ => isFalse (fun h => nomatch h)
  | .arr _, .str _ => isFalse (fun h => nomatch h)
  | .arr xs, .arr ys =>
    match Json.decEqList xs ys with
    | isTrue h => isTrue (by rw [h])
    | isFalse h => isFalse (fun hh => h (Json.arr.inj hh))
  | .arr _, .obj _ => isFalse (fun h => nomatch h)
  | .obj _, .null => isFalse (fun h => nomatch h)
  | .obj _, .bool _ => isFalse (fun h => nomatch h)
  | .obj _, .num _ _ => isFalse (fun h => nomatch h)
  | .obj _, .str _ => isFalse (fun h => nomatch h)
  | .obj _, .arr _ => isFalse (fun h => nomatch h)
  | .obj xs, .obj ys =>
    match Json.decEqKV xs ys with
    | isTrue h => isTrue (by rw [h])
    | isFalse h => isFalse (fun hh => h (Json.obj.inj hh))

def Json.decEqList : (a b : List Json) → Decidable (a = b)
  | [], [] => isTrue rfl
  | [], _ :: _ => isFalse (fun h => nomatch h)
  | _ :: _, [] => isFalse (fun h => nomatch h)
  | x :: xs, y :: ys =>
    match Json.decEq x y, Json.decEqList xs ys with
    | isTrue h1, isTrue h2 => isTrue (by rw [h1, h2])
    | isFalse h1, _ => isFalse (fun hh => h1 (List.cons.inj hh).1)
    | _, isFalse h2 => isFalse (fun hh => h2 (List.cons.inj hh).2)

def Json.decEqKV : (a b : List (String × Json)) → Decidable (a = b)
  | [], [] => isTrue rfl
  | [], _ :: _ => isFalse (fun h => nomatch h)
  | _ :: _, [] => isFalse (fun h => nomatch h)
  | (k, v) :: xs, (k', v') :: ys =>
    if h1 : k = k' then
      match Json.decEq v v', Json.decEqKV xs ys with
      | isTrue h2, isTrue h3 => isTrue (by rw [h1, h2, h3])
      | isFalse h2, _ =>
        isFalse (fun hh => h2 (congrArg Prod.snd (List.cons.inj hh).1))
      | _, isFalse h3 => isFalse (fun hh => h3 (List.cons.inj hh).2)
    else isFalse (fun hh => h1 (congrArg Prod.fst (List.cons.inj hh).1))

end

instance : DecidableEq Json := Json.decEq

/-- Left brace character, written via its code point. -/
def lbrace : Char := Char.ofNat 123

/-- Right brace character, written via its code point. -/
def rbrace : Char := Char.ofNat 125

/-- Whitespace class of Python's `\s` regex class restricted to ASCII:
space, tab, newline, carriage return, vertical tab, form feed. -/
def isPyWs (c : Char) : Bool :=
  c = ' ' || c = '\t' || c = '\n' || c = '\r' || c = Char.ofNat 11 || c = Char.ofNat 12

/-- Whitespace skipped by Python's json module: space, tab, newline, CR. -/
def isJsonWs (c : Char) : Bool :=
  c = ' ' || c = '\t' || c = '\n' || c = '\r'

/-- Trim `isPyWs` whitespace from both ends of a character list; this is the
effect of the `\s*(...)\s*` capture trimming and of `str.strip()` on ASCII. -/
def trimWs (cs : List Char) : List Char :=
  ((cs.dropWhile isPyWs).reverse.dropWhile isPyWs).reverse

/-- Python `str.strip()` on ASCII input. -/
def pyStrip (s : String) : String :=
  String.mk (trimWs s.data)

/-- Python `s.split("\n")` on the character level: always returns at least
one (possibly empty) piece. -/
def splitNLCh : List Char → List (List Char)
  | [] => [[]]
  | c :: rest =>
    if c = '\n' then [] :: splitNLCh rest
    else
      match splitNLCh rest with
      | l :: ls => (c :: l) :: ls
      | [] => [[c]]

/-- Python `s.split("\n")`. -/
def pySplitNL (s : String) : List String :=
  (splitNLCh s.data).map String.mk

/-- Python `"\n".join(l)`. -/
def pyJoinNL : List String → String
  | [] => ""
  | [x] => x
  | x :: xs => x ++ "\n" ++ pyJoinNL xs

/-- Substring containment, i.e. Python `needle in hay` on strings. -/
def containsSub (needle : List Char) : List Char → Bool
  | [] => needle.isEmpty
  | cs@(_ :: rest) => needle.isPrefixOf cs || containsSub needle rest

/-- Split a character list at the first occurrence of `pat`: returns the
part strictly before the occurrence and the part strictly after it. -/
def splitFirst (pat : List Char) : List Char → Option (List Char × List Char)
  | [] => if pat.isEmpty then some ([], []) else none
  | cs@(c :: rest) =>
    if pat.isPrefixOf cs then some ([], cs.drop pat.length)
    else (splitFirst pat rest).map (fun pr => (c :: pr.1, pr.2))

/-- Map then concatenate (Python-style accumulation of list pieces). -/
def concatMap (f : α → List β) : List α → List β
  | [] => []
  | x :: xs => f x ++ concatMap f xs

/-- Hexadecimal digit value, used for `\uXXXX` escapes. -/
def hexVal (c : Char) : Option Nat :=
  if c.isDigit then some (c.toNat - 48)
  else if 'a' ≤ c && c ≤ 'f' then some (c.toNat - 87)
  else if 'A' ≤ c && c ≤ 'F' then some (c.toNat - 55)
  else none

/-- Parse the body of a JSON string (the opening quote already consumed),
with the escape sequences and the strict rejection of raw control
characters of Python's json module.  Surrogate pairs written as two
`\uXXXX` escapes are combined; a lone surrogate falls back to `Char.ofNat`
(which yields NUL for non-scalar values — no theorem depends on this
corner).  Returns the decoded content and the rest after the closing
quote. -/
def parseStrChars : Nat → List Char → Option (List Char × List Char)
  | 0, _ => none
  | _ + 1, [] => none
  | fuel + 1, c :: rest =>
    if c = '"' then some ([], rest)
    else if c = '\\' then
      match rest with
      | [] => none
      | e :: rest2 =>
        if e = 'u' then
          match rest2 with
          | a :: b :: c3 :: d :: rest3 =>
            match hexVal a, hexVal b, hexVal c3, hexVal d with
            | some ha, some hb, some hc, some hd =>
              let n := ((ha * 16 + hb) * 16 + hc) * 16 + hd
              if 0xD800 ≤ n && n < 0xDC00 then
                match rest3 with
                | b1 :: b2 :: a2 :: b3 :: c4 :: d2 :: rest4 =>
                  match hexVal a2, hexVal b3, hexVal c4, hexVal d2 with
                  | some ha2, some hb2, some hc2, some hd2 =>
                    let n2 := ((ha2 * 16 + hb2) * 16 + hc2) * 16 + hd2
                    if b1 = '\\' && b2 = 'u' && (0xDC00 ≤ n2 && n2 < 0xE000) then
                      (parseStrChars fuel rest4).map (fun pr =>
                        (Char.ofNat (0x10000 + (n - 0xD800) * 1024 + (n2 - 0xDC00)) :: pr.1, pr.2))
                    else
                      (parseStrChars fuel rest3).map (fun pr => (Char.ofNat n :: pr.1, pr.2))
                  | _, _, _, _ =>
                    (parseStrChars fuel rest3).map (fun pr => (Char.ofNat n :: pr.1, pr.2))
                | _ =>
                  (parseStrChars fuel rest3).map (fun pr => (Char.ofNat n :: pr.1, pr.2))
              else
                (parseStrChars fuel rest3).map (fun pr => (Char.ofNat n :: pr.1, pr.2))
            | _, _, _, _ => none
          | _ => none
        else
          match
            (if e = '"' then some '"'
             else if e = '\\' then some '\\'
             else if e = '/' then some '/'
             else if e = 'b' then some (Char.ofNat 8)
             else if e = 'f' then some (Char.ofNat 12)
             else if e = 'n' then some '\n'
             else if e = 'r' then some '\r'
             else if e = 't' then some '\t'
             else none) with
          | some d => (parseStrChars fuel rest2).map (fun pr => (d :: pr.1, pr.2))
          | none => none
    else if c.toNat < 32 then none
    else (parseStrChars fuel rest).map (fun pr => (c :: pr.1, pr.2))

/-- Digits to a natural number. -/
def digitsToNat (ds : List Char) : Nat :=
  ds.foldl (fun acc c => acc * 10 + (c.toNat - 48)) 0

/-- Parse a JSON number token (grammar `-?(0|[1-9]\d*)(\.\d+)?([eE][-+]?\d+)?`)
into a mantissa/decimal-exponent pair. -/
def parseNum (cs : List Char) : Option (Json × List Char) :=
  let signSplit : Bool × List Char :=
    match cs with
    | '-' :: r => (true, r)
    | _ => (false, cs)
  match signSplit.2 with
  | [] => none
  | c :: r =>
    if ¬ c.isDigit then none
    else
      let intDigits := if c = '0' then [c] else c :: r.takeWhile Char.isDigit
      let rest1 := if c = '0' then r else r.dropWhile Char.isDigit
      let fracSplit : Option (List Char × List Char) :=
        match rest1 with
        | '.' :: fr =>
          let fd := fr.takeWhile Char.isDigit
          if fd.isEmpty then none else some (fd, fr.dropWhile Char.isDigit)
        | _ => some ([], rest1)
      match fracSplit with
      | none => none
      | some (fracDigits, rest2) =>
        let expSplit : Option (Int × List Char) :=
          match rest2 with
          | e :: er =>
            if e = 'e' || e = 'E' then
              let signSplit2 : Bool × List Char :=
                match er with
                | '-' :: er2 => (true, er2)
                | '+' :: er2 => (false, er2)
                | _ => (false, er)
              let ed := signSplit2.2.takeWhile Char.isDigit
              if ed.isEmpty then none
              else
                let ev : Int := Int.ofNat (digitsToNat ed)
                some (if signSplit2.1 then -ev else ev, signSplit2.2.dropWhile Char.isDigit)
            else some (0, rest2)
          | [] => some (0, rest2)
        match expSplit with
        | none => none
        | some (expVal, rest3) =>
          let mNat := digitsToNat (intDigits ++ fracDigits)
          let m : Int := if signSplit.1 then -(Int.ofNat mNat) else Int.ofNat mNat
          some (Json.num m (expVal - Int.ofNat fracDigits.length), rest3)

/-- Insert into an association list with Python-dict semantics: replacing an
existing key keeps its position and updates the value, a new key is
appended. -/
def insertStrKV (acc : List (String × Json)) (k : String) (v : Json) : List (String × Json) :=
  match acc with
  | [] => [(k, v)]
  | (k', v') :: t => if k' = k then (k', v) :: t else (k', v') :: insertStrKV t k v

mutual

/-- Fuelled recursive-descent parser for a JSON value; expects its input to
start directly at the value (whitespace already skipped). -/
def parseVal : Nat → List Char → Option (Json × List Char)
  | 0, _ => none
  | fuel + 1, cs =>
    match cs with
    | [] => none
    | c :: rest =>
      if c = 'n' then
        if ['u', 'l', 'l'].isPrefixOf rest then some (Json.null, rest.drop 3) else none
      else if c = 't' then
        if ['r', 'u', 'e'].isPrefixOf rest then some (Json.bool true, rest.drop 3) else none
      else if c = 'f' then
        if ['a', 'l', 's', 'e'].isPrefixOf rest then some (Json.bool false, rest.drop 4) else none
      else if c = '"' then
        (parseStrChars (rest.length + 1) rest).map (fun pr => (Json.str (String.mk pr.1), pr.2))
      else if c = '[' then
        match rest.dropWhile isJsonWs with
        | ']' :: r2 => some (Json.arr [], r2)
        | r1 => (parseArrItems fuel r1).map (fun pr => (Json.arr pr.1, pr.2))
      else if c = lbrace then
        match rest.dropWhile isJsonWs with
        | c2 :: r2 =>
          if c2 = rbrace then some (Json.obj [], r2)
          else
            (parseObjItems fuel (c2 :: r2)).map (fun pr =>
              (Json.obj (pr.1.foldl (fun acc kv => insertStrKV acc kv.1 kv.2) []), pr.2))
        | [] => none
      else if c = '-' || c.isDigit then parseNum cs
      else none

/-- Items of a JSON array after the opening bracket (input starts at the
first value, whitespace skipped); returns the items and the rest after the
closing bracket. -/
def parseArrItems : Nat → List Char → Option (List Json × List Char)
  | 0, _ => none
  | fuel + 1, cs =>
    match parseVal fuel cs with
    | none => none
    | some (v, rest) =>
      match rest.dropWhile isJsonWs with
      | ',' :: r2 =>
        (parseArrItems fuel (r2.dropWhile isJsonWs)).map (fun pr => (v :: pr.1, pr.2))
      | ']' :: r2 => some ([v], r2)
      | _ => none

/-- Key/value members of a JSON object after the opening brace (input starts
at the first key, whitespace skipped); returns the members in source order
and the rest after the closing brace. -/
def parseObjItems : Nat → List Char → Option (List (String × Json) × List Char)
  | 0, _ => none
  | fuel + 1, cs =>
    match cs with
    | [] => none
    | c :: rest =>
      if c = '"' then
        match parseStrChars (rest.length + 1) rest with
        | none => none
        | some (key, r1) =>
          match r1.dropWhile isJsonWs with
          | ':' :: r2 =>
            match parseVal fuel (r2.dropWhile isJsonWs) with
            | none => none
            | some (v, r3) =>
              match r3.dropWhile isJsonWs with
              | ',' :: r4 =>
                (parseObjItems fuel (r4.dropWhile isJsonWs)).map (fun pr =>
                  ((String.mk key, v) :: pr.1, pr.2))
              | c2 :: r4 =>
                if c2 = rbrace then some ([(String.mk key, v)], r4) else none
              | [] => none
          | _ => none
      else none

end

/-- Embedding of Python's `json.loads`: skip leading whitespace, parse one
value, require only whitespace to remain; any parse error (an exception in
Python) is `none`. -/
def Json.parse (s : String) : Option Json :=
  let cs := s.data.dropWhile isJsonWs
  match parseVal (2 * cs.length + 8) cs with
  | some (v, rest) => if (rest.dropWhile isJsonWs).isEmpty then some v else none
  | none => none

mutual

/-- Python `repr` of a parsed JSON value (used by `str()` on containers).
String escaping inside `repr` is simplified to plain quoting; no theorem
depends on the repr of a container or number. -/
def pyRepr : Json → String
  | .null => "None"
  | .bool true => "True"
  | .bool false => "False"
  | .num m e => if e = 0 then toString m else toString m ++ "e" ++ toString e
  | .str s => "\x27" ++ s ++ "\x27"
  | .arr xs => "[" ++ pyReprArr xs ++ "]"
  | .obj kvs => "\x7b" ++ pyReprObj kvs ++ "\x7d"

def pyReprArr : List Json → String
  | [] => ""
  | [x] => pyRepr x
  | x :: xs => pyRepr x ++ ", " ++ pyReprArr xs

def pyReprObj : List (String × Json) → String
  | [] => ""
  | [(k, v)] => "\x27" ++ k ++ "\x27: " ++ pyRepr v
  | (k, v) :: kvs => "\x27" ++ k ++ "\x27: " ++ pyRepr v ++ ", " ++ pyReprObj kvs

end

/-- Python `str()` of a parsed JSON value. -/
def pyStr : Json → String
  | .str s => s
  | v => pyRepr v

/-- Python truthiness of a parsed JSON value (`if not x` tests). -/
def truthy : Json → Bool
  | .null => false
  | .bool b => b
  | .num m _ => !(m == 0)
  | .str s => !(s == "")
  | .arr xs => !xs.isEmpty
  | .obj kvs => !kvs.isEmpty

/-- Embedding of `re.search(r"```json\s*([\s\S]*?)\s*```", response)` and its
captured group: the pattern matches iff a literal close fence follows the
first occurrence of the literal open fence, and the lazy group with its
greedy `\s*` borders captures the interior between the open fence and the
first subsequent close fence, with surrounding whitespace stripped. -/
def fenceJson (response : String) : Option String :=
  match splitFirst "```json".data response.data with
  | none => none
  | some (_, post) =>
    match splitFirst "```".data post with
    | none => none
    | some (interior, _) => some (String.mk (trimWs interior))

/-- Embedding of `re.search(r"```(?:text|plain)?\s*([\s\S]*?)\s*```", response)`
and its captured group: at the first occurrence of a fence, the optional tag
(`text` or `plain`) is consumed greedily, and the group captures up to the
first subsequent close fence, whitespace-stripped. -/
def fenceAny (response : String) : Option String :=
  match splitFirst "```".data response.data with
  | none => none
  | some (_, post) =>
    let post1 :=
      if "text".data.isPrefixOf post then post.drop 4
      else if "plain".data.isPrefixOf post then post.drop 5
      else post
    match splitFirst "```".data post1 with
    | none => none
    | some (interior, _) => some (String.mk (trimWs interior))

/-- Split off the leading run of `\s` whitespace. -/
def dropPyWsSplit (cs : List Char) : List Char × List Char :=
  (cs.takeWhile isPyWs, cs.dropWhile isPyWs)

/-- Locate, for pattern `.*}\s*\]` with greedy `.*` (DOTALL), the last `}` in
`cs` whose next non-whitespace character is `]`; returns the prefix of `cs`
up to and including that `]`. -/
def braceTail : List Char → Option (List Char)
  | [] => none
  | c :: rest =>
    match braceTail rest with
    | some tail => some (c :: tail)
    | none =>
      if c = rbrace then
        match dropPyWsSplit rest with
        | (ws, d :: _) => if d = ']' then some (c :: ws ++ [']']) else none
        | _ => none
      else none

/-- Scan for the leftmost match of `re.search(r"\[\s*{.*}\s*\]", response,
re.DOTALL)`: a `[` whose next non-whitespace is `{`, followed somewhere by a
`}` whose next non-whitespace is `]` (the `.*` is greedy, so the last such
`}` ends the match); returns the whole match, `group(0)`. -/
def bareScan : List Char → Option (List Char)
  | [] => none
  | c :: rest =>
    if c = '[' then
      match dropPyWsSplit rest with
      | (ws, d :: rest2) =>
        if d = lbrace then
          match braceTail rest2 with
          | some tail => some ('[' :: ws ++ d :: tail)
          | none => bareScan rest
        else bareScan rest
      | _ => bareScan rest
    else bareScan rest

/-- String-level wrapper for the bare-array pattern. -/
def bareArray (response : String) : Option String :=
  (bareScan response.data).map String.mk

/-- Embedding of
`re.search(r"(?:youtube\.com/watch\?v=|youtu\.be/)([^&\s]+)", url)`:
leftmost occurrence of either literal followed by a non-empty greedy run of
characters that are neither `&` nor whitespace; returns the captured run. -/
def urlSearch : List Char → Option (List Char)
  | [] => none
  | cs@(_ :: rest) =>
    if "youtube.com/watch?v=".data.isPrefixOf cs then
      let run := (cs.drop 20).takeWhile (fun ch => !(ch = '&' || isPyWs ch))
      if run.isEmpty then urlSearch rest else some run
    else if "youtu.be/".data.isPrefixOf cs then
      let run := (cs.drop 9).takeWhile (fun ch => !(ch = '&' || isPyWs ch))
      if run.isEmpty then urlSearch rest else some run
    else urlSearch rest

/-- Take exactly `n` decimal digits from the front. -/
def takeDigits : Nat → List Char → Option (List Char × List Char)
  | 0, cs => some ([], cs)
  | _ + 1, [] => none
  | n + 1, c :: cs =>
    if c.isDigit then (takeDigits n cs).map (fun pr => (c :: pr.1, pr.2))
    else none

/-- One backtracking alternative of the timestamp pattern
`[\[\(](\d{1,2}:?\d{2}:?\d{2})[\]\)]` after the opening bracket: `a` digits,
optionally a colon (`c1`), two digits, optionally a colon (`c2`), two
digits, then a closing `]` or `)`.  Returns the captured group and the
rest after the closing bracket. -/
def tsCombo (a : Nat) (c1 c2 : Bool) (cs : List Char) : Option (List Char × List Char) :=
  match takeDigits a cs with
  | none => none
  | some (d1, r1) =>
    match (if c1 then
             match r1 with
             | ':' :: r => some ([':'], r)
             | _ => none
           else some ([], r1)) with
    | none => none
    | some (s1, r2) =>
      match takeDigits 2 r2 with
      | none => none
      | some (d2, r3) =>
        match (if c2 then
                 match r3 with
                 | ':' :: r => some ([':'], r)
                 | _ => none
               else some ([], r3)) with
        | none => none
        | some (s2, r4) =>
          match takeDigits 2 r4 with
          | none => none
          | some (d3, r5) =>
            match r5 with
            | b :: r6 => if b = ']' || b = ')' then some (d1 ++ s1 ++ d2 ++ s2 ++ d3, r6) else none
            | [] => none

/-- Try the timestamp pattern anchored at the current position, with the
greedy backtracking order of the regex engine: two leading digits before
one, each optional colon present before absent. -/
def tsAt (cs : List Char) : Option (List Char × List Char) :=
  match cs with
  | [] => none
  | c :: rest =>
    if c = '[' || c = '(' then
      (tsCombo 2 true true rest) <|> (tsCombo 2 true false rest) <|>
      (tsCombo 2 false true rest) <|> (tsCombo 2 false false rest) <|>
      (tsCombo 1 true true rest) <|> (tsCombo 1 true false rest) <|>
      (tsCombo 1 false true rest) <|> (tsCombo 1 false false rest)
    else none

/-- Leftmost search for the timestamp pattern: returns the match start
position, the captured group, and the rest of the line after the match
(`line[match.end():]`). -/
def tsSearch : List Char → Nat → Option (Nat × List Char × List Char)
  | [], _ => none
  | c :: rest, pos =>
    match tsAt (c :: rest) with
    | some (g, r) => some (pos, g, r)
    | none => tsSearch rest (pos + 1)

/-- Character class `[A-Za-z\s]` of the speaker pattern. -/
def speakerClass (c : Char) : Bool :=
  ('A' ≤ c && c ≤ 'Z') || ('a' ≤ c && c ≤ 'z') || isPyWs c

/-- Embedding of `re.search(r"^([A-Za-z\s]+):", line)`: the pattern is
anchored, so it matches iff the maximal leading run of letters/whitespace is
non-empty and is immediately followed by a colon; the match always starts at
position 0.  Returns the captured group and `match.end()`. -/
def spMatch (cs : List Char) : Option (List Char × Nat) :=
  let run := cs.takeWhile speakerClass
  if run.isEmpty then none
  else
    match cs.drop run.length with
    | ':' :: _ => some (run, run.length + 1)
    | _ => none

/-- Embedding of `ClipPilotAgent._extract_json_from_response`.  The whole
Python body sits in one `try`: whichever regex matches first has its text
handed to `json.loads`, and any `JSONDecodeError` is caught and turned into
`None` — there is no fall-through to a later pattern after a parse error. -/
def _extract_json_from_response (response : String) : Option Json :=
  match fenceJson response with
  | some s => Json.parse s
  | none =>
    match bareArray response with
    | some s => Json.parse s
    | none => Json.parse response

/-- The conversational lead-in phrases dropped by
`_extract_transcript_from_response`. -/
def leadIns : List String :=
  ["I ", "Here", "The transcript", "This is", "Using"]

/-- Python `line.startswith(tuple_of_lead_ins)`. -/
def startsWithAny (line : String) : Bool :=
  leadIns.any (fun p => p.data.isPrefixOf line.data)

/-- Embedding of `ClipPilotAgent._extract_transcript_from_response`: first a
fenced block (optionally tagged `text`/`plain`), whose stripped group is
returned; otherwise the response is split into lines, lines starting with a
lead-in phrase are dropped, and the rest is joined and stripped. -/
def _extract_transcript_from_response (response : String) : String :=
  match fenceAny response with
  | some s => pyStrip s
  | none =>
    let lines := pySplitNL response
    let content_lines := lines.filter (fun l => !startsWithAny l)
    pyStrip (pyJoinNL content_lines)

/-- Per-line classification of `_format_transcript_as_markdown`: the list of
markdown lines appended for one input line.  The speaker branch fires when
the anchored speaker pattern matches and either no timestamp matches or the
speaker match start (always 0) is strictly below the timestamp match
start. -/
def formatLine (line : String) : List String :=
  let cs := line.data
  let timestamp_match := tsSearch cs 0
  let speaker_match := spMatch cs
  match speaker_match with
  | some (run, spEnd) =>
    match timestamp_match with
    | some (st, g, r) =>
      if 0 < st then
        let content := pyStrip (String.mk (cs.drop spEnd))
        ("\n### " ++ pyStrip (String.mk run) ++ "\n") ::
          (if content = "" then [] else [content])
      else ["**[" ++ String.mk g ++ "]** " ++ pyStrip (String.mk r)]
    | none =>
      let content := pyStrip (String.mk (cs.drop spEnd))
      ("\n### " ++ pyStrip (String.mk run) ++ "\n") ::
        (if content = "" then [] else [content])
  | none =>
    match timestamp_match with
    | some (_, g, r) => ["**[" ++ String.mk g ++ "]** " ++ pyStrip (String.mk r)]
    | none => [pyStrip line]

/-- Embedding of `ClipPilotAgent._format_transcript_as_markdown`: empty input
gives the empty string, otherwise a heading line followed by each input
line's classification, joined with newlines. -/
def _format_transcript_as_markdown (transcript : String) (video_id : String) : String :=
  if transcript = "" then ""
  else
    pyJoinNL (("# Transcript for Video " ++ video_id ++ "\n") ::
      concatMap formatLine (pySplitNL transcript))

/-- Association-list lookup modelling Python dict access (keys are unique in
a parsed dict, so the first hit is the value). -/
def lookupStr (kvs : List (String × Json)) (k : String) : Option Json :=
  (kvs.find? (fun p => p.1 == k)).map Prod.snd

/-- The `url`-field fallback of `_extract_video_id`: only a string value can
be searched (`re.search` on a non-string raises, which the handler turns
into `None`). -/
def urlFallback (kvs : List (String × Json)) : Option Json :=
  match lookupStr kvs "url" with
  | some (Json.str s) => (urlSearch s.data).map (fun r => Json.str (String.mk r))
  | some _ => none
  | none => none

/-- Embedding of `ClipPilotAgent._extract_video_id`.  A non-dict record
always yields `None` in Python — every probe on it either is false or
raises, and the handler catches everything.  For a dict: an `id` field that
is a dict with `videoId` or a string is used; an `id` of any other shape
falls through (the `elif "videoId"` arm is skipped because `"id" in video`
held); `videoId` at top level is used only when `id` is absent; finally the
`url` field is pattern-matched. -/
def _extract_video_id : Json → Option Json
  | Json.obj kvs =>
    match lookupStr kvs "id" with
    | some (Json.obj kvs2) =>
      match lookupStr kvs2 "videoId" with
      | some v => some v
      | none => urlFallback kvs
    | some (Json.str s) => some (Json.str s)
    | some _ => urlFallback kvs
    | none =>
      match lookupStr kvs "videoId" with
      | some v => some v
      | none => urlFallback kvs
  | _ => none

/-- Python `str(x)` of an optional id, as interpolated by the f-string
`f"Video {self._extract_video_id(video)}"`. -/
def pyStrOptId : Option Json → String
  | none => "None"
  | some v => pyStr v

/-- The `elif "title" in video / else` tail of `_extract_video_title`. -/
def topTitle (kvs : List (String × Json)) : Json :=
  match lookupStr kvs "title" with
  | some t => t
  | none => Json.str ("Video " ++ pyStrOptId (_extract_video_id (Json.obj kvs)))

/-- Embedding of `ClipPilotAgent._extract_video_title`.  Python `in` on a
non-dict is substring or element containment (raising a `TypeError` on the
subsequent subscript, which the handler converts to "Unknown Video"), and
`in` on numbers raises immediately.  A present `snippet.title` or top-level
`title` value is returned verbatim, whatever it is — including the empty
string. -/
def _extract_video_title : Json → Json
  | Json.obj kvs =>
    match lookupStr kvs "snippet" with
    | some (Json.obj sk) =>
      match lookupStr sk "title" with
      | some t => t
      | none => topTitle kvs
    | some (Json.str s) =>
      if containsSub "title".data s.data then Json.str "Unknown Video" else topTitle kvs
    | some (Json.arr xs) =>
      if xs.contains (Json.str "title") then Json.str "Unknown Video" else topTitle kvs
    | some _ => Json.str "Unknown Video"
    | none => topTitle kvs
  | Json.str s =>
    if containsSub "snippet".data s.data then Json.str "Unknown Video"
    else if containsSub "title".data s.data then Json.str "Unknown Video"
    else Json.str ("Video " ++ pyStrOptId (_extract_video_id (Json.str s)))
  | Json.arr xs =>
    if xs.contains (Json.str "snippet") then Json.str "Unknown Video"
    else if xs.contains (Json.str "title") then Json.str "Unknown Video"
    else Json.str ("Video " ++ pyStrOptId (_extract_video_id (Json.arr xs)))
  | _ => Json.str "Unknown Video"

/-- The search prompt built by `search_videos`. -/
def searchPrompt (query : String) (max_results : Nat) : String :=
  "Use the youtube.videos.searchVideos tool to search for \x27" ++ query ++
    "\x27. Limit to " ++ toString max_results ++ " results. Return the full JSON response."

/-- The transcript prompt built by `get_transcript`. -/
def transcriptPrompt (video_id : String) (language : Option String) : String :=
  "Use the youtube.transcripts.getTranscript tool with videoId: \x27" ++ video_id ++ "\x27" ++
    (match language with
     | some l => ", language: \x27" ++ l ++ "\x27"
     | none => "") ++
    ". Return the full transcript text."

/-- Embedding of `ClipPilotAgent.search_videos` over an oracle (the MCP
agent modelled as a pure prompt-to-response function): extract JSON from the
response; a missing or non-list result — and, identically, an empty list —
yields the empty list. -/
def search_videos (oracle : String → String) (query : String) (max_results : Nat) : List Json :=
  match _extract_json_from_response (oracle (searchPrompt query max_results)) with
  | some (Json.arr xs) => xs
  | _ => []

/-- Embedding of `ClipPilotAgent.get_transcript`: extract raw transcript
text from the oracle response; empty means failure and is returned as is,
otherwise the text is formatted as markdown for this video id. -/
def get_transcript (oracle : String → String) (video_id : String)
    (language : Option String) : String :=
  let transcript := _extract_transcript_from_response (oracle (transcriptPrompt video_id language))
  if transcript = "" then ""
  else _format_transcript_as_markdown transcript video_id

/-- Python `results[title] = transcript` on the result dict: replace in
place if the key is present, else append. -/
def insertKV (acc : List (Json × String)) (k : Json) (v : String) : List (Json × String) :=
  match acc with
  | [] => [(k, v)]
  | (k', v') :: t => if k' = k then (k', v) :: t else (k', v') :: insertKV t k v

/-- The per-record body of the `search_and_get_transcripts` loop: extract
the id (a falsy id — `if not video_id` — skips the record), extract the
title, fetch the transcript, and store a non-empty transcript under the
title. -/
def sagtStep (oracle : String → String) (language : Option String)
    (results : List (Json × String)) (video : Json) : List (Json × String) :=
  match _extract_video_id video with
  | none => results
  | some vid =>
    if truthy vid then
      let video_title := _extract_video_title video
      let transcript := get_transcript oracle (pyStr vid) language
      if transcript = "" then results else insertKV results video_title transcript
    else results

/-- Embedding of the whole `search_and_get_transcripts` method: a left fold
of the per-record body over the search results, starting from the empty
dict (an empty search yields the empty dict either way). -/
def search_and_get_transcripts (oracle : String → String) (query : String)
    (max_results : Nat) (language : Option String) : List (Json × String) :=
  (search_videos oracle query max_results).foldl (sagtStep oracle language) []

/-- The no-fence branch of `extract_transcript`, stated in the words of the
spec: split into lines, drop any line starting with one of the fixed
conversational lead-in phrases, join the remaining lines with newlines,
trimmed. -/
def extract_transcript_spec (response : String) : String :=
  pyStrip (pyJoinNL ((pySplitNL response).filter (fun l => !startsWithAny l)))

/-- The title-field value that `_extract_video_title` returns verbatim when
one of its two field paths fires (nested `snippet.title`, else top-level
`title`), and `none` when the function instead synthesizes or fails. -/
def titleFieldOf : Json → Option Json
  | Json.obj kvs =>
    match lookupStr kvs "snippet" with
    | some (Json.obj sk) =>
      match lookupStr sk "title" with
      | some t => some t
      | none => lookupStr kvs "title"
    | some (Json.str s) =>
      if containsSub "title".data s.data then none else lookupStr kvs "title"
    | some (Json.arr xs) =>
      if xs.contains (Json.str "title") then none else lookupStr kvs "title"
    | some _ => none
    | none => lookupStr kvs "title"
  | _ => none

/-- The records on which the body of `_extract_video_title` raises in
Python (a `TypeError` from `in` on a number, or from subscripting a
non-dict whose containment probe succeeded), making the handler return
"Unknown Video".  On every other record the body returns normally. -/
def titleRaises : Json → Bool
  | Json.obj kvs =>
    match lookupStr kvs "snippet" with
    | some (Json.obj _) => false
    | some (Json.str s) => containsSub "title".data s.data
    | some (Json.arr xs) => xs.contains (Json.str "title")
    | some _ => true
    | none => false
  | Json.str s =>
    containsSub "snippet".data s.data || containsSub "title".data s.data
  | Json.arr xs =>
    xs.contains (Json.str "snippet") || xs.contains (Json.str "title")
  | _ => true

/-- An `id` field value that neither of the two usable shapes accepts: not a
string, and not a mapping carrying `videoId`. -/
def idUnusable : Json → Bool
  | Json.obj kvs2 => (lookupStr kvs2 "videoId").isNone
  | Json.str _ => false
  | _ => true

/-- Remove a key from an association list. -/
def eraseKey (kvs : List (String × Json)) (k : String) : List (String × Json) :=
  kvs.filter (fun p => !(p.1 == k))

/-- The pair contributed to the result dict by one search record, if any:
the record is kept iff its extracted id is truthy and its fetched transcript
is non-empty, and it contributes its extracted title and formatted
transcript. -/
def pairOf (oracle : String → String) (language : Option String) (video : Json) :
    Option (Json × String) :=
  match _extract_video_id video with
  | none => none
  | some vid =>
    if truthy vid then
      let transcript := get_transcript oracle (pyStr vid) language
      if transcript = "" then none else some (_extract_video_title video, transcript)
    else none

/-- The kept records' title/transcript pairs, in search order. -/
def keptPairs (oracle : String → String) (query : String) (max_results : Nat)
    (language : Option String) : List (Json × String) :=
  (search_videos oracle query max_results).filterMap (pairOf oracle language)

/-- Fold a pair list into a dict with `insertKV`. -/
def foldIns : List (Json × String) → List (Json × String) → List (Json × String)
  | acc, [] => acc
  | acc, p :: ps => foldIns (insertKV acc p.1 p.2) ps

/-- Dict lookup on the result association list. -/
def lookupKV (l : List (Json × String)) (k : Json) : Option String :=
  (l.find? (fun p => p.1 == k)).map Prod.snd

/-- The value of the last pair carrying the given key, if any. -/
def lastMatch : List (Json × String) → Json → Option String
  | [], _ => none
  | p :: ps, k =>
    match lastMatch ps k with
    | some v => some v
    | none => if p.1 = k then some p.2 else none

/-- A deterministic stand-in oracle: a search returning two records with
distinct ids but the same title, and a transcript for each id. -/
def oracle2 : String → String := fun p =>
  if p = searchPrompt "q" 3 then
    "[\x7b\"id\": \"a\", \"title\": \"T\"\x7d, \x7b\"id\": \"b\", \"title\": \"T\"\x7d]"
  else if p = transcriptPrompt "a" none then "alpha words"
  else if p = transcriptPrompt "b" none then "beta words"
  else ""

theorem strAssoc (a b c : String) : (a ++ b) ++ c = a ++ (b ++ c) := by
  cases a with
  | mk da =>
    cases b with
    | mk db =>
      cases c with
      | mk dc =>
        show String.mk ((da ++ db) ++ dc) = String.mk (da ++ (db ++ dc))
        rw [List.append_assoc]

theorem videoPrefixNeEmpty (x : String) : "Video " ++ x ≠ "" := by
  intro h
  have hd := congrArg String.data h
  simp [String.data] at hd

theorem headingNeEmpty (i x : String) : "# Transcript for Video " ++ i ++ "\n\n" ++ x ≠ "" := by
  intro h
  have hd := congrArg String.data h
  simp [String.data] at hd

theorem insertKV_fst_sublist (acc : List (Json × String)) (k : Json) (v : String) :
    List.Sublist ((insertKV acc k v).map Prod.fst) (acc.map Prod.fst ++ [k]) := by
  induction acc with
  | nil => simp [insertKV]
  | cons p t ih =>
    obtain ⟨pk, pv⟩ := p
    by_cases h : pk = k
    · simp only [insertKV, h, if_pos rfl, List.map_cons]
      exact (List.sublist_append_left (k :: t.map Prod.fst) [k])
    · simp only [insertKV, h, if_neg h, List.map_cons]
      exact ih.cons₂ pk

theorem foldIns_fst_sublist (ps : List (Json × String)) :
    ∀ acc, List.Sublist ((foldIns acc ps).map Prod.fst)
      (acc.map Prod.fst ++ ps.map Prod.fst) := by
  induction ps with
  | nil => intro acc; simp [foldIns]
  | cons p t ih =>
    intro acc
    have h2 := insertKV_fst_sublist acc p.1 p.2
    have h3 := h2.append_right (t.map Prod.fst)
    have h4 := ((ih (insertKV acc p.1 p.2)).trans h3 :
      List.Sublist ((foldIns (insertKV acc p.1 p.2) t).map Prod.fst)
        ((acc.map Prod.fst ++ [p.1]) ++ t.map Prod.fst))
    have h5 : foldIns acc (p :: t) = foldIns (insertKV acc p.1 p.2) t := rfl
    rw [h5]
    simpa using h4

theorem lookupKV_insert_self (acc : List (Json × String)) (k : Json) (v : String) :
    lookupKV (insertKV acc k v) k = some v := by
  induction acc with
  | nil => simp [insertKV, lookupKV]
  | cons p t ih =>
    obtain ⟨pk, pv⟩ := p
    by_cases h : pk = k
    · subst h
      simp [insertKV, lookupKV]
    · simp only [insertKV, if_neg h]
      have hb : (pk == k) = false := beq_eq_false_iff_ne.mpr h
      simpa [lookupKV, List.find?, hb] using ih

theorem lookupKV_insert_other (acc : List (Json × String)) (k T : Json) (v : String)
    (hne : k ≠ T) : lookupKV (insertKV acc k v) T = lookupKV acc T := by
  induction acc with
  | nil => simp [insertKV, lookupKV, hne]
  | cons p t ih =>
    obtain ⟨pk, pv⟩ := p
    by_cases h : pk = k
    · subst h
      have hb : (pk == T) = false := beq_eq_false_iff_ne.mpr hne
      simp [insertKV, lookupKV, List.find?, hb]
    · by_cases h2 : pk = T
      · subst h2
        simp [insertKV, if_neg h, lookupKV, List.find?]
      · simp only [insertKV, if_neg h]
        have hb : (pk == T) = false := beq_eq_false_iff_ne.mpr h2
        simpa [lookupKV, List.find?, hb] using ih

theorem lookupKV_foldIns (ps : List (Json × String)) :
    ∀ acc T, lookupKV (foldIns acc ps) T =
      match lastMatch ps T with
      | some v => some v
      | none => lookupKV acc T := by
  induction ps with
  | nil => intro acc T; simp [foldIns, lastMatch]
  | cons p t ih =>
    intro acc T
    show lookupKV (foldIns (insertKV acc p.1 p.2) t) T = _
    rw [ih]
    cases hlm : lastMatch t T with
    | some w => simp [lastMatch, hlm]
    | none =>
      by_cases h : p.1 = T
      · subst h
        simp [lastMatch, hlm, lookupKV_insert_self]
      · simp [lastMatch, hlm, h, lookupKV_insert_other acc p.1 T p.2 h]

theorem insertKV_fst_eq (acc : List (Json × String)) (k : Json) (v : String) :
    (insertKV acc k v).map Prod.fst =
      if k ∈ acc.map Prod.fst then acc.map Prod.fst else acc.map Prod.fst ++ [k] := by
  induction acc with
  | nil => simp [insertKV]
  | cons p t ih =>
    obtain ⟨pk, pv⟩ := p
    by_cases h : pk = k
    · subst h
      simp [insertKV]
    · have hne : ¬ (k = pk) := fun hh => h hh.symm
      by_cases hm : k ∈ t.map Prod.fst
      · simp [insertKV, if_neg h, ih, hm, hne]
      · simp [insertKV, if_neg h, ih, hm, hne]

theorem insertKV_fst_nodup (acc : List (Json × String)) (k : Json) (v : String)
    (h : (acc.map Prod.fst).Nodup) : ((insertKV acc k v).map Prod.fst).Nodup := by
  rw [insertKV_fst_eq]
  by_cases hm : k ∈ acc.map Prod.fst
  · simpa [hm] using h
  · rw [if_neg hm, List.nodup_append]
    refine ⟨h, List.nodup_singleton k, ?_⟩
    intro a ha hb
    simp at hb
    subst hb
    exact hm ha

theorem foldIns_fst_nodup (ps : List (Json × String)) :
    ∀ acc, (acc.map Prod.fst).Nodup → ((foldIns acc ps).map Prod.fst).Nodup := by
  induction ps with
  | nil => intro acc h; exact h
  | cons p t ih =>
    intro acc h
    exact ih (insertKV acc p.1 p.2) (insertKV_fst_nodup acc p.1 p.2 h)

theorem filter_eq_nil_of_not_mem (l : List (Json × String)) (T : Json)
    (h : T ∉ l.map Prod.fst) : l.filter (fun p => p.1 == T) = [] := by
  induction l with
  | nil => simp
  | cons p t ih =>
    obtain ⟨pk, pv⟩ := p
    simp only [List.map_cons, List.mem_cons] at h
    push_neg at h
    have hb : (pk == T) = false := beq_eq_false_iff_ne.mpr (fun hh => h.1 hh.symm)
    simp [List.filter, hb, ih h.2]

theorem filter_length_one (l : List (Json × String)) (T : Json) (v : String)
    (hnd : (l.map Prod.fst).Nodup) (hl : lookupKV l T = some v) :
    (l.filter (fun p => p.1 == T)).length = 1 := by
  induction l with
  | nil => simp [lookupKV] at hl
  | cons p t ih =>
    obtain ⟨pk, pv⟩ := p
    simp only [List.map_cons, List.nodup_cons] at hnd
    by_cases h : pk = T
    · subst h
      have hft : t.filter (fun p => p.1 == pk) = [] :=
        filter_eq_nil_of_not_mem t pk hnd.1
      simp [List.filter, hft]
    · have hb : (pk == T) = false := beq_eq_false_iff_ne.mpr h
      have hl2 : lookupKV t T = some v := by
        simpa [lookupKV, List.find?, hb] using hl
      simp [List.filter, hb, ih hnd.2 hl2]

theorem sagtStep_eq (oracle : String → String) (lang : Option String)
    (acc : List (Json × String)) (v : Json) :
    sagtStep oracle lang acc v =
      match pairOf oracle lang v with
      | none => acc
      | some p => insertKV acc p.1 p.2 := by
  unfold sagtStep pairOf
  cases hid : _extract_video_id v with
  | none => rfl
  | some vid =>
    cases ht : truthy vid with
    | false => simp [ht]
    | true =>
      by_cases htr : get_transcript oracle (pyStr vid) lang = ""
      · simp [ht, htr]
      · simp [ht, htr]

theorem foldl_sagtStep (oracle : String → String) (lang : Option String)
    (videos : List Json) :
    ∀ acc, videos.foldl (sagtStep oracle lang) acc =
      foldIns acc (videos.filterMap (pairOf oracle lang)) := by
  induction videos with
  | nil => intro acc; simp [foldIns]
  | cons v t ih =>
    intro acc
    rw [List.foldl_cons, List.filterMap_cons, sagtStep_eq]
    cases hp : pairOf oracle lang v with
    | none =>
      simp only [hp]
      exact ih acc
    | some p =>
      simp only [hp]
      show t.foldl (sagtStep oracle lang) (insertKV acc p.1 p.2) =
        foldIns acc (p :: t.filterMap (pairOf oracle lang))
      show t.foldl (sagtStep oracle lang) (insertKV acc p.1 p.2) =
        foldIns (insertKV acc p.1 p.2) (t.filterMap (pairOf oracle lang))
      exact ih _

theorem sagt_eq_foldIns (oracle : String → String) (query : String) (mr : Nat)
    (lang : Option String) :
    search_and_get_transcripts oracle query mr lang =
      foldIns [] (keptPairs oracle query mr lang) := by
  unfold search_and_get_transcripts keptPairs
  exact foldl_sagtStep oracle lang (search_videos oracle query mr) []

theorem mem_insertKV (acc : List (Json × String)) (k : Json) (v : String)
    (p : Json × String) (h : p ∈ insertKV acc k v) : p ∈ acc ∨ p = (k, v) := by
  induction acc with
  | nil => simpa [insertKV] using h
  | cons q t ih =>
    obtain ⟨qk, qv⟩ := q
    by_cases hq : qk = k
    · subst hq
      simp only [insertKV, if_pos rfl] at h
      rcases List.mem_cons.mp h with h1 | h1
      · right; exact h1
      · left; exact List.mem_cons_of_mem _ h1
    · simp only [insertKV, if_neg hq] at h
      rcases List.mem_cons.mp h with h1 | h1
      · left; exact h1 ▸ List.mem_cons_self _ _
      · rcases ih h1 with h2 | h2
        · left; exact List.mem_cons_of_mem _ h2
        · right; exact h2

theorem mem_foldIns (ps : List (Json × String)) :
    ∀ acc p, p ∈ foldIns acc ps → p ∈ acc ∨ p.2 ∈ ps.map Prod.snd := by
  induction ps with
  | nil => intro acc p h; left; exact h
  | cons q t ih =>
    intro acc p h
    rcases ih (insertKV acc q.1 q.2) p h with h1 | h1
    · rcases mem_insertKV acc q.1 q.2 p h1 with h2 | h2
      · left; exact h2
      · right
        simp [h2]
    · right
      simp [h1]

theorem formatLine_ne_nil (line : String) : formatLine line ≠ [] := by
  unfold formatLine
  cases hsp : spMatch line.data with
  | none =>
    cases hts : tsSearch line.data 0 with
    | none => simp [hsp, hts]
    | some x =>
      obtain ⟨st, g, r⟩ := x
      simp [hsp, hts]
  | some x =>
    obtain ⟨run, spEnd⟩ := x
    cases hts : tsSearch line.data 0 with
    | none => simp [hsp, hts]
    | some y =>
      obtain ⟨st, g, r⟩ := y
      by_cases h : 0 < st <;> simp [hsp, hts, h]

theorem splitNLCh_ne_nil (cs : List Char) : splitNLCh cs ≠ [] := by
  cases cs with
  | nil => simp [splitNLCh]
  | cons c rest =>
    by_cases h : c = '\n'
    · simp [splitNLCh, h]
    · cases h2 : splitNLCh rest <;> simp [splitNLCh, h, h2]

theorem pySplitNL_ne_nil (s : String) : pySplitNL s ≠ [] := by
  unfold pySplitNL
  simpa using splitNLCh_ne_nil s.data

theorem concatMap_formatLine_ne_nil (l0 : String) (ls : List String) :
    concatMap formatLine (l0 :: ls) ≠ [] := by
  unfold concatMap
  intro h
  rcases List.append_eq_nil.mp h with ⟨h1, _⟩
  exact formatLine_ne_nil l0 h1

theorem pyJoinNL_cons (x : String) (xs : List String) (h : xs ≠ []) :
    pyJoinNL (x :: xs) = x ++ "\n" ++ pyJoinNL xs := by
  cases xs with
  | nil => exact absurd rfl h
  | cons y ys => rfl

theorem format_shape (t vid : String) (h : t ≠ "") :
    ∃ rest, _format_transcript_as_markdown t vid =
      "# Transcript for Video " ++ vid ++ "\n\n" ++ rest := by
  unfold _format_transcript_as_markdown
  rw [if_neg h]
  obtain ⟨l0, ls, hsplit⟩ := List.exists_cons_of_ne_nil (pySplitNL_ne_nil t)
  rw [hsplit]
  have hbody := concatMap_formatLine_ne_nil l0 ls
  refine ⟨pyJoinNL (concatMap formatLine (l0 :: ls)), ?_⟩
  rw [pyJoinNL_cons _ _ hbody]
  rw [strAssoc ("# Transcript for Video " ++ vid) "\n" "\n"]
  rfl

theorem get_transcript_shape (oracle : String → String) (vid : String)
    (lang : Option String) :
    get_transcript oracle vid lang = "" ∨
      ∃ rest, get_transcript oracle vid lang =
        "# Transcript for Video " ++ vid ++ "\n\n" ++ rest := by
  unfold get_transcript
  by_cases h : _extract_transcript_from_response (oracle (transcriptPrompt vid lang)) = ""
  · left; simp [h]
  · right
    simpa [h] using format_shape _ vid h

theorem tsSearch_pos_le (cs : List Char) :
    ∀ pos st g r, tsSearch cs pos = some (st, g, r) → pos ≤ st := by
  induction cs with
  | nil => intro pos st g r h; simp [tsSearch] at h
  | cons c rest ih =>
    intro pos st g r h
    unfold tsSearch at h
    cases hat : tsAt (c :: rest) with
    | some x =>
      rw [hat] at h
      obtain ⟨hst, _⟩ := Prod.mk.inj (Option.some.inj h)
      omega
    | none =>
      rw [hat] at h
      have := ih (pos + 1) st g r h
      omega

theorem tsSearch_zero_tsAt (cs : List Char) (g r : List Char)
    (h : tsSearch cs 0 = some (0, g, r)) : tsAt cs = some (g, r) := by
  cases cs with
  | nil => simp [tsSearch] at h
  | cons c rest =>
    unfold tsSearch at h
    cases hat : tsAt (c :: rest) with
    | some x =>
      rw [hat] at h
      obtain ⟨g', r'⟩ := x
      obtain ⟨_, h2⟩ := Prod.mk.inj (Option.some.inj h)
      rw [h2]
    | none =>
      rw [hat] at h
      have := tsSearch_pos_le rest 1 0 g r h
      omega

theorem tsAt_head_bracket (cs : List Char) (g r : List Char)
    (h : tsAt cs = some (g, r)) : ∃ c rest, cs = c :: rest ∧ (c = '[' ∨ c = '(') := by
  cases cs with
  | nil => simp [tsAt] at h
  | cons c rest =>
    by_cases hc : c = '[' ∨ c = '('
    · exact ⟨c, rest, rfl, hc⟩
    · push_neg at hc
      simp [tsAt, hc.1, hc.2] at h

theorem spMatch_head (cs : List Char) (run : List Char) (e : Nat)
    (h : spMatch cs = some (run, e)) :
    ∃ c rest, cs = c :: rest ∧ speakerClass c = true := by
  cases cs with
  | nil => simp [spMatch] at h
  | cons c rest =>
    cases hc : speakerClass c with
    | true => exact ⟨c, rest, rfl, hc⟩
    | false => simp [spMatch, List.takeWhile, hc] at h

theorem lookupStr_eraseKey (kvs : List (String × Json)) (k k' : String) (hne : k' ≠ k) :
    lookupStr (eraseKey kvs k) k' = lookupStr kvs k' := by
  induction kvs with
  | nil => rfl
  | cons p t ih =>
    obtain ⟨pk, pv⟩ := p
    by_cases h : pk = k
    · subst h
      have hb2 : (pk == k') = false := beq_eq_false_iff_ne.mpr (fun hh => hne hh.symm)
      simp only [eraseKey, List.filter_cons, beq_self_eq_true, Bool.not_true, if_neg]
      rw [show lookupStr ((pk, pv) :: t) k' =
        lookupStr t k' from by simp [lookupStr, List.find?, hb2]]
      exact ih
    · have hb : (pk == k) = false := beq_eq_false_iff_ne.mpr h
      by_cases h2 : pk = k'
      · subst h2
        simp [eraseKey, List.filter_cons, hb, lookupStr, List.find?]
      · have hb2 : (pk == k') = false := beq_eq_false_iff_ne.mpr h2
        simp only [eraseKey, List.filter_cons, hb, Bool.not_false, if_pos]
        rw [show lookupStr ((pk, pv) :: List.filter (fun p => !(p.1 == k)) t) k' =
          lookupStr (List.filter (fun p => !(p.1 == k)) t) k' from by
            simp [lookupStr, List.find?, hb2]]
        rw [show lookupStr ((pk, pv) :: t) k' = lookupStr t k' from by
          simp [lookupStr, List.find?, hb2]]
        exact ih

theorem tsAt_hmmss (h m1 m2 s1 s2 : Char) (rest : List Char)
    (hh : h.isDigit = true) (hm1 : m1.isDigit = true) (hm2 : m2.isDigit = true)
    (hs1 : s1.isDigit = true) (hs2 : s2.isDigit = true) :
    tsAt ('[' :: h :: ':' :: m1 :: m2 :: ':' :: s1 :: s2 :: ']' :: rest) =
      some ([h, ':', m1, m2, ':', s1, s2], rest) := by
  have hcolon : (':' : Char).isDigit = false := by decide
  simp [tsAt, tsCombo, takeDigits, hh, hm1, hm2, hs1, hs2, hcolon]

theorem spMatch_bracket (rest : List Char) : spMatch ('[' :: rest) = none := by
  have hc : speakerClass '[' = false := by decide
  simp [spMatch, List.takeWhile, hc]

/-- C1, counterexample: a response whose labeled ```json fence matches with
an interior that is not valid JSON, while the response also contains a valid
bare top-level JSON array of objects.  The claim says `extract_json` falls
through and returns that bare array; the code hands the fence interior to
`json.loads`, catches the decode error, and returns no value. -/
theorem c1_counterexample :
    fenceJson "```json\n\x7boops\n```\n[\x7b\"a\": 1\x7d]" = some "\x7boops" ∧
    Json.parse "\x7boops" = none ∧
    bareArray "```json\n\x7boops\n```\n[\x7b\"a\": 1\x7d]" = some "[\x7b\"a\": 1\x7d]" ∧
    Json.parse "[\x7b\"a\": 1\x7d]" = some (Json.arr [Json.obj [("a", Json.num 1 0)]]) ∧
    _extract_json_from_response "```json\n\x7boops\n```\n[\x7b\"a\": 1\x7d]" = none ∧
    _extract_json_from_response "```json\n\x7boops\n```\n[\x7b\"a\": 1\x7d]" ≠
      some (Json.arr [Json.obj [("a", Json.num 1 0)]]) :=
  ⟨rfl, rfl, rfl, rfl, rfl, by decide⟩

/-- C1, amended: `extract_json` commits to the first extraction path whose
regular expression matches; when the labeled fence matches, the result is
exactly `json.loads` of its interior (no value on a parse error), and the
bare-array path is consulted only when the fence pattern does not match at
all. -/
theorem c1_amended (response : String) :
    (∀ s, fenceJson response = some s →
      _extract_json_from_response response = Json.parse s) ∧
    (fenceJson response = none → ∀ t, bareArray response = some t →
      _extract_json_from_response response = Json.parse t) := by
  constructor
  · intro s hs
    unfold _extract_json_from_response
    rw [hs]
  · intro hn t ht
    unfold _extract_json_from_response
    rw [hn, ht]

/-- C1, witness for the amended theorem at concrete inputs. -/
theorem c1_amended_witness :
    _extract_json_from_response "```json\n\x7boops\n```\n[\x7b\"a\": 1\x7d]" =
      Json.parse "\x7boops" ∧
    _extract_json_from_response "see [\x7b\"a\": 1\x7d]" = Json.parse "[\x7b\"a\": 1\x7d]" :=
  ⟨(c1_amended "```json\n\x7boops\n```\n[\x7b\"a\": 1\x7d]").1 "\x7boops" rfl,
   (c1_amended "see [\x7b\"a\": 1\x7d]").2 rfl "[\x7b\"a\": 1\x7d]" rfl⟩

/-- C2, counterexample: a record whose `id` field is a number (neither a
mapping with `videoId` nor a string) and which has a top-level `videoId`.
The claim says `extract_id` returns the top-level `videoId`; the code skips
the `elif "videoId"` arm (because `"id" in video` held) and returns no id. -/
theorem c2_counterexample :
    _extract_video_id (Json.obj [("id", Json.num 5 0), ("videoId", Json.str "abc")]) = none ∧
    _extract_video_id (Json.obj [("id", Json.num 5 0), ("videoId", Json.str "abc")]) ≠
      some (Json.str "abc") :=
  ⟨rfl, by decide⟩

/-- C2, amended: when the `id` field is present but unusable (neither a
mapping containing `videoId` nor a string), the top-level `videoId` field is
never consulted — extraction proceeds directly to the `url` fallback, and
the result is unchanged if the top-level `videoId` entry is removed. -/
theorem c2_amended (kvs : List (String × Json)) (v : Json)
    (hid : lookupStr kvs "id" = some v) (hun : idUnusable v = true) :
    _extract_video_id (Json.obj kvs) = urlFallback kvs ∧
    _extract_video_id (Json.obj kvs) =
      _extract_video_id (Json.obj (eraseKey kvs "videoId")) := by
  have main : ∀ kv : List (String × Json), lookupStr kv "id" = some v →
      _extract_video_id (Json.obj kv) = urlFallback kv := by
    intro kv hkv
    cases v with
    | obj kvs2 =>
      have hnone : lookupStr kvs2 "videoId" = none := by
        simpa [idUnusable] using hun
      simp [_extract_video_id, hkv, hnone]
    | str s => simp [idUnusable] at hun
    | null => simp [_extract_video_id, hkv]
    | bool b => simp [_extract_video_id, hkv]
    | num m e => simp [_extract_video_id, hkv]
    | arr xs => simp [_extract_video_id, hkv]
  have hiderase : lookupStr (eraseKey kvs "videoId") "id" = some v := by
    rw [lookupStr_eraseKey kvs "videoId" "id" (by decide)]
    exact hid
  have hurl : urlFallback (eraseKey kvs "videoId") = urlFallback kvs := by
    unfold urlFallback
    rw [lookupStr_eraseKey kvs "videoId" "url" (by decide)]
  refine ⟨main kvs hid, ?_⟩
  rw [main kvs hid, main _ hiderase, hurl]

/-- C2, witness for the amended theorem at the counterexample record. -/
theorem c2_amended_witness :
    _extract_video_id (Json.obj [("id", Json.num 5 0), ("videoId", Json.str "abc")]) =
      urlFallback [("id", Json.num 5 0), ("videoId", Json.str "abc")] ∧
    _extract_video_id (Json.obj [("id", Json.num 5 0), ("videoId", Json.str "abc")]) =
      _extract_video_id
        (Json.obj (eraseKey [("id", Json.num 5 0), ("videoId", Json.str "abc")] "videoId")) :=
  c2_amended [("id", Json.num 5 0), ("videoId", Json.str "abc")] (Json.num 5 0) rfl rfl

/-- C3, counterexample: the line `[01:02] hello` carries a bracketed
two-digit:two-digit timestamp and admits no speaker match, yet the
formatter's timestamp pattern (which needs five or six digits) does not
match it, and `format` emits the line verbatim instead of the claimed
`**[01:02]** hello`. -/
theorem c3_counterexample :
    spMatch "[01:02] hello".data = none ∧
    tsSearch "[01:02] hello".data 0 = none ∧
    formatLine "[01:02] hello" = ["[01:02] hello"] ∧
    formatLine "[01:02] hello" ≠ ["**[01:02]** hello"] :=
  ⟨rfl, rfl, rfl, by decide⟩

/-- C3, amended: the timestamp classifier accepts bracketed times with five
digits in `H:MM:SS` shape (not the four-digit `MM:SS`); for every line that
starts with such a timestamp (so no anchored speaker match exists), `format`
emits `**[<timestamp>]** <remaining content after the timestamp token>`. -/
theorem c3_amended (h m1 m2 s1 s2 : Char) (rest : List Char)
    (hh : h.isDigit = true) (hm1 : m1.isDigit = true) (hm2 : m2.isDigit = true)
    (hs1 : s1.isDigit = true) (hs2 : s2.isDigit = true) :
    formatLine (String.mk ('[' :: h :: ':' :: m1 :: m2 :: ':' :: s1 :: s2 :: ']' :: rest)) =
      ["**[" ++ String.mk [h, ':', m1, m2, ':', s1, s2] ++ "]** " ++
        pyStrip (String.mk rest)] := by
  have hts : tsSearch ('[' :: h :: ':' :: m1 :: m2 :: ':' :: s1 :: s2 :: ']' :: rest) 0 =
      some (0, [h, ':', m1, m2, ':', s1, s2], rest) := by
    unfold tsSearch
    rw [tsAt_hmmss h m1 m2 s1 s2 rest hh hm1 hm2 hs1 hs2]
  have hsp : spMatch ('[' :: h :: ':' :: m1 :: m2 :: ':' :: s1 :: s2 :: ']' :: rest) = none :=
    spMatch_bracket _
  unfold formatLine
  simp [hsp, hts]

/-- C3, witness for the amended theorem at a concrete line. -/
theorem c3_amended_witness :
    formatLine (String.mk ('[' :: '1' :: ':' :: '0' :: '2' :: ':' :: '0' :: '3' :: ']' :: " hi".data)) =
      ["**[" ++ String.mk ['1', ':', '0', '2', ':', '0', '3'] ++ "]** " ++
        pyStrip (String.mk " hi".data)] :=
  c3_amended '1' '0' '2' '0' '3' " hi".data rfl rfl rfl rfl rfl

/-- C4, counterexample: records carrying an empty string under
`snippet.title` or top-level `title` make `extract_title` return the empty
string verbatim, contradicting the claim that the result is always
non-empty. -/
theorem c4_counterexample :
    _extract_video_title (Json.obj [("snippet", Json.obj [("title", Json.str "")])]) =
      Json.str "" ∧
    _extract_video_title (Json.obj [("title", Json.str "")]) = Json.str "" :=
  ⟨rfl, rfl⟩

theorem extractTitle_field (video : Json) (t : Json)
    (h : titleFieldOf video = some t) : _extract_video_title video = t := by
  cases video with
  | obj kvs =>
    cases hsn : lookupStr kvs "snippet" with
    | some sv =>
      cases sv with
      | obj sk =>
        cases hti : lookupStr sk "title" with
        | some t2 =>
          have ht2 : t2 = t := by
            simpa [titleFieldOf, hsn, hti] using h
          simp [_extract_video_title, hsn, hti, ht2]
        | none =>
          have ht2 : lookupStr kvs "title" = some t := by
            simpa [titleFieldOf, hsn, hti] using h
          simp [_extract_video_title, hsn, hti, topTitle, ht2]
      | str s =>
        by_cases hc : containsSub "title".data s.data = true
        · simp [titleFieldOf, hsn, hc] at h
        · have hcf : containsSub "title".data s.data = false := Bool.eq_false_iff.mpr hc
          have ht2 : lookupStr kvs "title" = some t := by
            simpa [titleFieldOf, hsn, hcf] using h
          simp [_extract_video_title, hsn, hcf, topTitle, ht2]
      | arr xs =>
        by_cases hc : Json.str "title" ∈ xs
        · have hcb : xs.contains (Json.str "title") = true := by simpa using hc
          simp [titleFieldOf, hsn, hcb, hc] at h
        · have hcb : xs.contains (Json.str "title") = false := by simpa using hc
          have ht2 : lookupStr kvs "title" = some t := by
            simpa [titleFieldOf, hsn, hcb, hc] using h
          simp [_extract_video_title, hsn, hcb, hc, topTitle, ht2]
      | null => simp [titleFieldOf, hsn] at h
      | bool b => simp [titleFieldOf, hsn] at h
      | num m e => simp [titleFieldOf, hsn] at h
    | none =>
      have ht2 : lookupStr kvs "title" = some t := by
        simpa [titleFieldOf, hsn] using h
      simp [_extract_video_title, hsn, topTitle, ht2]
  | str s => simp [titleFieldOf] at h
  | arr xs => simp [titleFieldOf] at h
  | null => simp [titleFieldOf] at h
  | bool b => simp [titleFieldOf] at h
  | num m e => simp [titleFieldOf] at h

theorem extractTitle_unknown (video : Json) (h : titleRaises video = true) :
    _extract_video_title video = Json.str "Unknown Video" := by
  cases video with
  | obj kvs =>
    cases hsn : lookupStr kvs "snippet" with
    | some sv =>
      cases sv with
      | obj sk => simp [titleRaises, hsn] at h
      | str s =>
        have hc : containsSub "title".data s.data = true := by
          simpa [titleRaises, hsn] using h
        simp [_extract_video_title, hsn, hc]
      | arr xs =>
        have hc : xs.contains (Json.str "title") = true := by
          simpa [titleRaises, hsn] using h
        have hm : Json.str "title" ∈ xs := by simpa using hc
        simp [_extract_video_title, hsn, hc, hm]
      | null => simp [_extract_video_title, hsn]
      | bool b => simp [_extract_video_title, hsn]
      | num m e => simp [_extract_video_title, hsn]
    | none => simp [titleRaises, hsn] at h
  | str s =>
    have hor : containsSub "snippet".data s.data = true ∨
        containsSub "title".data s.data = true := by
      simpa [titleRaises, Bool.or_eq_true] using h
    by_cases h1 : containsSub "snippet".data s.data = true
    · simp [_extract_video_title, h1]
    · have h1f : containsSub "snippet".data s.data = false := Bool.eq_false_iff.mpr h1
      have h2 : containsSub "title".data s.data = true := hor.resolve_left h1
      simp [_extract_video_title, h1f, h2]
  | arr xs =>
    have hor : xs.contains (Json.str "snippet") = true ∨
        xs.contains (Json.str "title") = true := by
      simpa [titleRaises, Bool.or_eq_true] using h
    by_cases h1 : Json.str "snippet" ∈ xs
    · simp [_extract_video_title, h1]
    · have h2 : Json.str "title" ∈ xs := by
        have := hor.resolve_left (by simpa using h1)
        simpa using this
      simp [_extract_video_title, h1, h2]
  | null => rfl
  | bool b => rfl
  | num m e => rfl

theorem extractTitle_synth (video : Json) (h1 : titleRaises video = false)
    (h2 : titleFieldOf video = none) :
    _extract_video_title video =
      Json.str ("Video " ++ pyStrOptId (_extract_video_id video)) := by
  cases video with
  | obj kvs =>
    cases hsn : lookupStr kvs "snippet" with
    | some sv =>
      cases sv with
      | obj sk =>
        cases hti : lookupStr sk "title" with
        | some t2 => simp [titleFieldOf, hsn, hti] at h2
        | none =>
          have ht2 : lookupStr kvs "title" = none := by
            simpa [titleFieldOf, hsn, hti] using h2
          simp [_extract_video_title, hsn, hti, topTitle, ht2]
      | str s =>
        have hcf : containsSub "title".data s.data = false := by
          simpa [titleRaises, hsn] using h1
        have ht2 : lookupStr kvs "title" = none := by
          simpa [titleFieldOf, hsn, hcf] using h2
        simp [_extract_video_title, hsn, hcf, topTitle, ht2]
      | arr xs =>
        have hcb : xs.contains (Json.str "title") = false := by
          simpa [titleRaises, hsn] using h1
        have hm : Json.str "title" ∉ xs := by simpa using hcb
        have ht2 : lookupStr kvs "title" = none := by
          simpa [titleFieldOf, hsn, hcb, hm] using h2
        simp [_extract_video_title, hsn, hcb, hm, topTitle, ht2]
      | null => simp [titleRaises, hsn] at h1
      | bool b => simp [titleRaises, hsn] at h1
      | num m e => simp [titleRaises, hsn] at h1
    | none =>
      have ht2 : lookupStr kvs "title" = none := by
        simpa [titleFieldOf, hsn] using h2
      simp [_extract_video_title, hsn, topTitle, ht2]
  | str s =>
    have h1u : (containsSub "snippet".data s.data ||
        containsSub "title".data s.data) = false := h1
    obtain ⟨hb1, hb2⟩ := Bool.or_eq_false_iff.mp h1u
    simp [_extract_video_title, hb1, hb2]
  | arr xs =>
    have h1u : (xs.contains (Json.str "snippet") ||
        xs.contains (Json.str "title")) = false := h1
    obtain ⟨hb1, hb2⟩ := Bool.or_eq_false_iff.mp h1u
    have hm1 : Json.str "snippet" ∉ xs := by simpa using hb1
    have hm2 : Json.str "title" ∉ xs := by simpa using hb2
    simp [_extract_video_title, hm1, hm2]
  | null => simp [titleRaises] at h1
  | bool b => simp [titleRaises] at h1
  | num m e => simp [titleRaises] at h1

/-- C4, amended: a present `snippet.title` or top-level `title` field is
returned verbatim — possibly the empty string; on the records where the
Python body raises, the handler returns exactly `"Unknown Video"`; when the
body returns normally and no title field is present, the result is exactly
the synthesized `"Video {extract_id(record)}"` label; and in every
no-title-field case the result is a non-empty string. -/
theorem c4_amended (video : Json) :
    (∀ t, titleFieldOf video = some t → _extract_video_title video = t) ∧
    (titleRaises video = true →
      _extract_video_title video = Json.str "Unknown Video") ∧
    (titleRaises video = false → titleFieldOf video = none →
      _extract_video_title video =
        Json.str ("Video " ++ pyStrOptId (_extract_video_id video))) ∧
    (titleFieldOf video = none →
      ∃ s, _extract_video_title video = Json.str s ∧ s ≠ "") := by
  refine ⟨fun t ht => extractTitle_field video t ht,
    fun hr => extractTitle_unknown video hr,
    fun hr hf => extractTitle_synth video hr hf, fun hf => ?_⟩
  cases hr : titleRaises video with
  | true =>
    exact ⟨"Unknown Video", extractTitle_unknown video hr, by decide⟩
  | false =>
    exact ⟨"Video " ++ pyStrOptId (_extract_video_id video),
      extractTitle_synth video hr hf, videoPrefixNeEmpty _⟩

/-- C4, witness for the amended theorem: each clause at a concrete record —
the empty present title is returned verbatim, a numeric record yields
exactly "Unknown Video", and the empty record yields exactly the
synthesized "Video None" label, which is non-empty. -/
theorem c4_amended_witness :
    _extract_video_title (Json.obj [("snippet", Json.obj [("title", Json.str "")])]) =
      Json.str "" ∧
    _extract_video_title (Json.num 7 0) = Json.str "Unknown Video" ∧
    _extract_video_title (Json.obj []) =
      Json.str ("Video " ++ pyStrOptId (_extract_video_id (Json.obj []))) ∧
    (∃ s, _extract_video_title (Json.obj []) = Json.str s ∧ s ≠ "") :=
  ⟨(c4_amended (Json.obj [("snippet", Json.obj [("title", Json.str "")])])).1
      (Json.str "") rfl,
   (c4_amended (Json.num 7 0)).2.1 rfl,
   (c4_amended (Json.obj [])).2.2.1 rfl rfl,
   (c4_amended (Json.obj [])).2.2.2 rfl⟩

/-- C5, confirmed: on a line where both the speaker-label pattern and the
timestamp pattern match, the speaker match is anchored at position 0 and the
timestamp match cannot start at 0 (its first character is a bracket, which
the speaker class excludes), so the timestamp start is strictly positive,
"at or before" coincides with the code's strict comparison, and the line is
emitted as a speaker heading block. -/
theorem c5 (line : String) (run : List Char) (spEnd : Nat) (st : Nat) (g r : List Char)
    (hsp : spMatch line.data = some (run, spEnd))
    (hts : tsSearch line.data 0 = some (st, g, r)) :
    0 < st ∧ ((0 ≤ st) ↔ (0 < st)) ∧
    formatLine line =
      ("\n### " ++ pyStrip (String.mk run) ++ "\n") ::
        (if pyStrip (String.mk (line.data.drop spEnd)) = "" then []
         else [pyStrip (String.mk (line.data.drop spEnd))]) := by
  have hpos : 0 < st := by
    rcases Nat.eq_zero_or_pos st with h0 | h0
    · subst h0
      have hat := tsSearch_zero_tsAt line.data g r hts
      obtain ⟨c, rest, hcs, hbr⟩ := tsAt_head_bracket line.data g r hat
      obtain ⟨c', rest', hcs', hsc⟩ := spMatch_head line.data run spEnd hsp
      rw [hcs] at hcs'
      obtain ⟨hc, _⟩ := List.cons.inj hcs'
      rw [← hc] at hsc
      rcases hbr with hb | hb <;> rw [hb] at hsc <;>
        exact absurd hsc (by decide)
    · exact h0
  refine ⟨hpos, ⟨fun _ => hpos, fun _ => Nat.zero_le st⟩, ?_⟩
  unfold formatLine
  simp [hsp, hts, hpos]

/-- C5, witness at a concrete line carrying both a speaker label and a
timestamp. -/
theorem c5_witness :
    0 < 10 ∧ ((0 ≤ 10) ↔ (0 < 10)) ∧
    formatLine "Alice: hi [1:02:03]" =
      ("\n### " ++ pyStrip (String.mk ['A', 'l', 'i', 'c', 'e']) ++ "\n") ::
        (if pyStrip (String.mk ("Alice: hi [1:02:03]".data.drop 6)) = "" then []
         else [pyStrip (String.mk ("Alice: hi [1:02:03]".data.drop 6))]) :=
  c5 "Alice: hi [1:02:03]" ['A', 'l', 'i', 'c', 'e'] 6 10
    ['1', ':', '0', '2', ':', '0', '3'] [] rfl rfl

/-- C6, confirmed: for every oracle, an empty search yields the empty map;
otherwise records are processed in order, records with no (truthy) id or an
empty transcript contribute nothing, and the result's keys are a sublist of
the kept records' titles in search order — so there is at most one entry per
record and the search order is preserved among included entries. -/
theorem c6 (oracle : String → String) (query : String) (mr : Nat) (lang : Option String) :
    (search_videos oracle query mr = [] →
      search_and_get_transcripts oracle query mr lang = []) ∧
    List.Sublist ((search_and_get_transcripts oracle query mr lang).map Prod.fst)
      ((keptPairs oracle query mr lang).map Prod.fst) ∧
    (search_and_get_transcripts oracle query mr lang).length ≤
      (keptPairs oracle query mr lang).length := by
  have hb := sagt_eq_foldIns oracle query mr lang
  have hsub : List.Sublist ((search_and_get_transcripts oracle query mr lang).map Prod.fst)
      ((keptPairs oracle query mr lang).map Prod.fst) := by
    rw [hb]
    simpa using foldIns_fst_sublist (keptPairs oracle query mr lang) []
  refine ⟨?_, hsub, ?_⟩
  · intro h
    unfold search_and_get_transcripts
    rw [h]
    rfl
  · have h2 := hsub.length_le
    simpa using h2

/-- C6, witness: an oracle whose search response parses to nothing yields
the empty map. -/
theorem c6_witness :
    search_and_get_transcripts (fun _ => "") "q" 5 none = [] :=
  (c6 (fun _ => "") "q" 5 none).1 rfl

/-- C7, confirmed: when two distinct kept records share an extracted title,
the result map holds exactly one entry under that title, and its value is
the formatted transcript of the record processed last in search order. -/
theorem c7 (oracle : String → String) (query : String) (mr : Nat) (lang : Option String)
    (T : Json) (t : String)
    (hdup : 2 ≤ ((keptPairs oracle query mr lang).filter (fun p => p.1 == T)).length)
    (hlast : lastMatch (keptPairs oracle query mr lang) T = some t) :
    ((search_and_get_transcripts oracle query mr lang).filter
        (fun p => p.1 == T)).length = 1 ∧
    lookupKV (search_and_get_transcripts oracle query mr lang) T = some t := by
  have hb := sagt_eq_foldIns oracle query mr lang
  have hlook : lookupKV (search_and_get_transcripts oracle query mr lang) T = some t := by
    rw [hb, lookupKV_foldIns]
    simp [hlast]
  refine ⟨?_, hlook⟩
  have hnd : ((foldIns [] (keptPairs oracle query mr lang)).map Prod.fst).Nodup :=
    foldIns_fst_nodup (keptPairs oracle query mr lang) [] (by simp)
  rw [hb]
  exact filter_length_one _ T t hnd (hb ▸ hlook)

/-- C7, witness: a concrete oracle returning two records with distinct ids
and the same title, both with non-empty transcripts; the map keeps exactly
the later record's transcript. -/
theorem c7_witness :
    ((search_and_get_transcripts oracle2 "q" 3 none).filter
        (fun p => p.1 == Json.str "T")).length = 1 ∧
    lookupKV (search_and_get_transcripts oracle2 "q" 3 none) (Json.str "T") =
      some "# Transcript for Video b\n\nbeta words" :=
  c7 oracle2 "q" 3 none (Json.str "T") "# Transcript for Video b\n\nbeta words"
    (by decide) rfl

/-- C8, confirmed: when all three JSON extraction paths fail (pattern
mismatch or parse error), `extract_json` returns no value rather than
raising; and `extract_transcript` is a total function returning a string
(non-raising is by construction of the shallow embedding). -/
theorem c8 (response : String)
    (h1 : fenceJson response = none ∨
      ∃ s, fenceJson response = some s ∧ Json.parse s = none)
    (h2 : bareArray response = none ∨
      ∃ s, bareArray response = some s ∧ Json.parse s = none)
    (h3 : Json.parse response = none) :
    _extract_json_from_response response = none ∧
    ∃ t, _extract_transcript_from_response response = t := by
  refine ⟨?_, ⟨_, rfl⟩⟩
  unfold _extract_json_from_response
  rcases h1 with hf | ⟨s, hf, hp⟩
  · rw [hf]
    rcases h2 with hbb | ⟨s, hbb, hp⟩
    · rw [hbb]; exact h3
    · rw [hbb]; exact hp
  · rw [hf]; exact hp

/-- C8, witness at a response failing all three paths. -/
theorem c8_witness :
    _extract_json_from_response "hello there" = none ∧
    ∃ t, _extract_transcript_from_response "hello there" = t :=
  c8 "hello there" (Or.inl rfl) (Or.inl rfl) rfl

/-- C9, confirmed: on a response with no fenced block, `extract_transcript`
splits into lines, drops exactly the lines starting with one of the five
case-sensitive lead-in prefixes, joins with newlines and trims — the
spec-worded function `extract_transcript_spec`. -/
theorem c9 (response : String) (h : fenceAny response = none) :
    _extract_transcript_from_response response = extract_transcript_spec response := by
  unfold _extract_transcript_from_response extract_transcript_spec
  rw [h]

/-- C9, witness: the spec's worked example. -/
theorem c9_witness :
    _extract_transcript_from_response "Here is the transcript:\nHello\nWorld" =
      extract_transcript_spec "Here is the transcript:\nHello\nWorld" ∧
    extract_transcript_spec "Here is the transcript:\nHello\nWorld" = "Hello\nWorld" :=
  ⟨c9 "Here is the transcript:\nHello\nWorld" rfl, rfl⟩

/-- C10, confirmed (implicit): every `get_transcript` result is either empty
or a markdown document starting with the heading line
`# Transcript for Video {video_id}` followed by a blank line, and every
value stored in the result map of `search_and_get_transcripts` starts with
that heading for some id (the record's extracted id rendered by `str`). -/
theorem c10 (oracle : String → String) (vid : String) (lang : Option String)
    (query : String) (mr : Nat) :
    (get_transcript oracle vid lang = "" ∨
      ∃ rest, get_transcript oracle vid lang =
        "# Transcript for Video " ++ vid ++ "\n\n" ++ rest) ∧
    (∀ p, p ∈ search_and_get_transcripts oracle query mr lang →
      ∃ i rest, p.2 = "# Transcript for Video " ++ i ++ "\n\n" ++ rest) := by
  refine ⟨get_transcript_shape oracle vid lang, ?_⟩
  intro p hp
  rw [sagt_eq_foldIns] at hp
  rcases mem_foldIns _ [] p hp with h | h
  · simp at h
  · unfold keptPairs at h
    rcases List.mem_map.mp h with ⟨q, hq, hq2⟩
    rcases List.mem_filterMap.mp hq with ⟨video, _, hpair⟩
    unfold pairOf at hpair
    cases hid : _extract_video_id video with
    | none => rw [hid] at hpair; exact absurd hpair (by simp)
    | some vIdJ =>
      rw [hid] at hpair
      cases ht : truthy vIdJ with
      | false => simp [ht] at hpair
      | true =>
        by_cases htr : get_transcript oracle (pyStr vIdJ) lang = ""
        · simp [ht, htr] at hpair
        · have hq3 : q = (_extract_video_title video,
              get_transcript oracle (pyStr vIdJ) lang) := by
            simpa [ht, htr] using hpair.symm
          rcases get_transcript_shape oracle (pyStr vIdJ) lang with hsh | ⟨rest, hsh⟩
          · exact absurd hsh htr
          · refine ⟨pyStr vIdJ, rest, ?_⟩
            rw [← hq2, hq3]
            exact hsh

/-- C10, witness: the heading shape at a concrete oracle, both for a direct
`get_transcript` call and for a value stored in the result map. -/
theorem c10_witness :
    (get_transcript oracle2 "a" none = "" ∨
      ∃ rest, get_transcript oracle2 "a" none =
        "# Transcript for Video " ++ "a" ++ "\n\n" ++ rest) ∧
    (∃ i rest, (Json.str "T", "# Transcript for Video b\n\nbeta words").2 =
      "# Transcript for Video " ++ i ++ "\n\n" ++ rest) :=
  ⟨(c10 oracle2 "a" none "q" 3).1,
   (c10 oracle2 "a" none "q" 3).2
     (Json.str "T", "# Transcript for Video b\n\nbeta words") (by decide)⟩
